import Mathlib

/-!
Verification of the attio-clay-enrichment pipeline against its specification.

The embedding models the Python sources shallowly:
* Attio/Clay wire values (Python JSON-ish objects) become the inductive `JVal`;
  Python `None` is collapsed into `JVal.null` (the sources only ever compare
  values for truthiness or against string literals, where the two coincide).
* dictionaries become association lists, `dict.get` becomes `dictGet`,
  Python truthiness becomes `JVal.truthy`.
* code that can raise (iterating a non-iterable, reading `values` that is not
  a dict) returns `Except Unit _`, with `.error ()` marking the raise.
* the record store is modelled as an association list from record id to a
  field valuation `String → JVal`; `update_record` (a PATCH of a values map,
  dropping `None` entries) becomes `applyUpdates`.
-/

/-- A JSON-like Python value as handled by the clients. `null` also stands for
Python `None`. Numbers are modelled as integers (no float arithmetic occurs
in the sources). -/
inductive JVal where
  | null : JVal
  | bool : Bool → JVal
  | num : Int → JVal
  | str : String → JVal
  | arr : List JVal → JVal
  | obj : List (String × JVal) → JVal

/-- Python truthiness of a value (`if not x: ...`). -/
def JVal.truthy : JVal → Bool
  | .null => false
  | .bool b => b
  | .num n => n != 0
  | .str s => s != ""
  | .arr xs => !xs.isEmpty
  | .obj kvs => !kvs.isEmpty

/-- Python `x is None`. -/
def JVal.isNull : JVal → Bool
  | .null => true
  | _ => false

/-- Python `x == "lit"` where the right side is a string literal: only a
string compares equal to a string in Python. -/
def jeqStr (v : JVal) (s : String) : Bool :=
  match v with
  | .str t => t == s
  | _ => false

/-- Lookup in a Python dict modelled as an association list. -/
def dictGet (kvs : List (String × JVal)) (k : String) : Option JVal :=
  (kvs.find? (fun p => p.1 == k)).map (fun p => p.2)

/-- Python `d.get(k)` (default `None`). -/
def dget (kvs : List (String × JVal)) (k : String) : JVal :=
  (dictGet kvs k).getD .null

/-- Python `a or b` on values: the first operand if truthy, else the second. -/
def pyOr (a b : JVal) : JVal :=
  if a.truthy then a else b

/-- Python `str(x)`. Container cases are abbreviated to a bracketed marker:
every predicate in the sources only tests the result for truthiness or
compares it with a status constant, and any container renders to a nonempty
bracketed string, so element rendering is not observable here. -/
def pyStr : JVal → String
  | .null => "None"
  | .bool true => "True"
  | .bool false => "False"
  | .num n => toString n
  | .str s => s
  | .arr _ => "[...]"
  | .obj _ => "\x7b...\x7d"

/-- Python iteration `for entry in x`: lists yield their elements, strings
their characters, dicts their keys; numbers and booleans are not iterable
(`none` marks the `TypeError`). `null` never reaches iteration in the
sources (it is falsy and filtered before). -/
def pyIter : JVal → Option (List JVal)
  | .arr xs => some xs
  | .str s => some (s.data.map (fun c => .str c.toString))
  | .obj kvs => some (kvs.map (fun p => .str p.1))
  | _ => none

/- ===== value extraction (src/attio_client.py) ===== -/

/-- Loop body of `_extract_email`: scan the entries, return the first truthy
`email_address or original_email_address` of a dict entry. -/
def emailLoop : List JVal → JVal
  | [] => .null
  | e :: rest =>
    match e with
    | .obj kvs =>
      let email := pyOr (dget kvs "email_address") (dget kvs "original_email_address")
      if email.truthy then email else emailLoop rest
    | _ => emailLoop rest

/-- Embeds `_extract_email(values)` (attio_client.py:83-95). Returns `.error ()`
when Python would raise (iterating a non-iterable `email_addresses`). -/
def extract_email (values : List (String × JVal)) : Except Unit JVal :=
  let email_addresses := (dictGet values "email_addresses").getD (.arr [])
  if !email_addresses.truthy then .ok .null
  else
    match pyIter email_addresses with
    | none => .error ()
    | some entries => .ok (emailLoop entries)

/-- Embeds `_extract_text_value(values, field)` (attio_client.py:97-118). -/
def extract_text_value (values : List (String × JVal)) (field : String) : JVal :=
  let field_data := (dictGet values field).getD (.arr [])
  if !field_data.truthy then .null
  else
    match field_data with
    | .arr (first :: _) =>
      match first with
      | .obj kvs =>
        let attr_type := (dictGet kvs "attribute_type").getD (.str "")
        if jeqStr attr_type "text" then dget kvs "value"
        else if jeqStr attr_type "personal-name" then dget kvs "full_name"
        else pyOr (dget kvs "value") (dget kvs "full_name")
      | other => .str (pyStr other)
    | _ => .null

/-- Embeds `_has_company(values)` (attio_client.py:120-132). -/
def has_company (values : List (String × JVal)) : Bool :=
  let company_data := (dictGet values "company").getD (.arr [])
  if !company_data.truthy then false
  else
    match company_data with
    | .arr (first :: _) =>
      match first with
      | .obj kvs => (dget kvs "target_record_id").truthy
      | _ => false
    | _ => false

/-- Embeds `_needs_enrichment(record)` (attio_client.py:61-81). The record is a raw
Attio record; `record.get("values", \x7b\x7d)` that is not a dict makes the
later `.get` calls raise, hence `.error ()` there too. -/
def needs_enrichment (record : List (String × JVal)) : Except Unit Bool :=
  match (dictGet record "values").getD (.obj []) with
  | .obj values =>
    match extract_email values with
    | .error e => .error e
    | .ok email =>
      if !email.truthy then .ok false
      else
        let status := extract_text_value values "clay_enrichment_status"
        if jeqStr status "sent_to_clay" || jeqStr status "enriched" ||
           jeqStr status "skipped" || jeqStr status "failed" then .ok false
        else
          let job_title := extract_text_value values "job_title"
          let hc := has_company values
          let linkedin := extract_text_value values "linkedin"
          .ok (!job_title.truthy || !hc || !linkedin.truthy)
  | _ => .error ()

/-- Embeds `_needs_company_linking` (attio_client.py:252-270), over the values dict. -/
def needs_company_linking (values : List (String × JVal)) : Bool :=
  if !(jeqStr (extract_text_value values "clay_enrichment_status") "enriched") then false
  else if !(extract_text_value values "enriched_company_name").truthy then false
  else if has_company values then false
  else true

/-- Client-side filter of `query_unenriched_records` (attio_client.py:53-59):
keep the raw records for which `_needs_enrichment` holds; a raise while
classifying one record aborts the query. -/
def filter_needs_enrichment : List (List (String × JVal)) → Except Unit (List (List (String × JVal)))
  | [] => .ok []
  | r :: rest => do
    let b ← needs_enrichment r
    let tail ← filter_needs_enrichment rest
    pure (if b then r :: tail else tail)

/- ===== spec-side predicates (for comparison with the source) ===== -/

/-- The claimed classifier, following the spec sentence: eligible iff the
email is present AND the status is outside
`\x7bsent_to_clay, enriched, company_linked, skipped, failed\x7d` AND one of
job_title / company reference / linkedin is absent. Identical to
`needs_enrichment` except that the excluded-status set also contains
`company_linked`. -/
def needs_enrichment_claim (record : List (String × JVal)) : Except Unit Bool :=
  match (dictGet record "values").getD (.obj []) with
  | .obj values =>
    match extract_email values with
    | .error e => .error e
    | .ok email =>
      if !email.truthy then .ok false
      else
        let status := extract_text_value values "clay_enrichment_status"
        if jeqStr status "sent_to_clay" || jeqStr status "enriched" ||
           jeqStr status "company_linked" ||
           jeqStr status "skipped" || jeqStr status "failed" then .ok false
        else
          let job_title := extract_text_value values "job_title"
          let hc := has_company values
          let linkedin := extract_text_value values "linkedin"
          .ok (!job_title.truthy || !hc || !linkedin.truthy)
  | _ => .error ()

/-- The spec sentence for company linking: status is `enriched` AND
`enriched_company_name` is non-empty AND the company reference is absent. -/
def needs_company_linking_spec (values : List (String × JVal)) : Bool :=
  jeqStr (extract_text_value values "clay_enrichment_status") "enriched" &&
  (extract_text_value values "enriched_company_name").truthy &&
  !(has_company values)

/- ===== record store and status transition writer ===== -/

/-- The observable field valuation of one store record (logical field name to
value; `.null` stands for an absent field). -/
abbrev Fields := String → JVal

/-- Build a field valuation from a finite listing. -/
def mkFields (l : List (String × JVal)) : Fields :=
  fun k => dget l k

/-- Embeds `update_record` semantics (attio_client.py:147-169): the updates dict is
written over the record, entries whose value is `None` being dropped first;
for each field the last non-null update wins, other fields keep their value. -/
def applyUpdates (f : Fields) (us : List (String × JVal)) : Fields :=
  fun k =>
    match us.reverse.find? (fun p => p.1 == k && !p.2.isNull) with
    | some p => p.2
    | none => f k

/-- Python `s[:n]` on a string: the first `n` code points. -/
def pyTake (s : String) (n : Nat) : String :=
  ⟨s.data.take n⟩

/-- The updates dict built by `mark_enriched` (attio_client.py:178-193).
`clay_enriched_at` is the current UTC time, modelled by the integer `now`. -/
def mark_enriched_updates (now : Int) (enriched_data : List (String × JVal)) :
    List (String × JVal) :=
  [("clay_enrichment_status", JVal.str "enriched"),
   ("clay_enriched_at", JVal.num now)] ++
  (if (dget enriched_data "job_title").truthy then
    [("job_title", dget enriched_data "job_title")] else []) ++
  (if (dget enriched_data "linkedin_url").truthy then
    [("linkedin", dget enriched_data "linkedin_url")] else []) ++
  (if (dget enriched_data "clay_row_id").truthy then
    [("clay_row_id", dget enriched_data "clay_row_id")] else [])

/-- The updates dict built by `mark_failed` (attio_client.py:195-200):
status `failed` plus the error message truncated to 500 characters. -/
def mark_failed_updates (error_message : String) : List (String × JVal) :=
  [("clay_enrichment_status", JVal.str "failed"),
   ("enrichment_error", JVal.str (pyTake error_message 500))]

/-- The updates dict built by `mark_sent_to_clay` (attio_client.py:171-176):
status `sent_to_clay` and `clay_sent_at` stamped with the current time.
(main.py passes a second `clay_row_id` argument that the method as defined
in src does not accept; the updates here are the ones src builds.) -/
def mark_sent_updates (now : Int) : List (String × JVal) :=
  [("clay_enrichment_status", JVal.str "sent_to_clay"),
   ("clay_sent_at", JVal.num now)]

/-- The record store: record id to field valuation. -/
abbrev Store := List (String × Fields)

/-- Fields of a record in the store (an unknown id reads as all-absent). -/
def storeGet (s : Store) (rid : String) : Fields :=
  match s.find? (fun p => p.1 == rid) with
  | some p => p.2
  | none => fun _ => .null

/-- Patch one record of the store with an updates dict. -/
def update_store (s : Store) (rid : String) (us : List (String × JVal)) : Store :=
  s.map (fun p => if p.1 == rid then (p.1, applyUpdates p.2 us) else p)

/- ===== reconciliation driver (src/main.py) ===== -/

/-- A row of the Clay table. -/
abbrev ClayRow := List (String × JVal)

/-- A pending record as consumed by `process_pending_enrichments`
(main.py:60-68): its id and its `sent_at` timestamp. -/
structure PendingRec where
  record_id : String
  sent_at : Option Int
deriving Repr, DecidableEq

/-- Modelled from the spec: `query_pending_records` is called by main.py:48
but defined nowhere under src. Per the Record Store Adapter contract
(`query_by_status`) it returns the Records currently in status
`sent_to_clay`, with identity and `sent_at`; the batch cap is a query
parameter and is not modelled (capped-out records are simply deferred). -/
def query_pending_records (s : Store) : List PendingRec :=
  (s.filter (fun p => jeqStr (p.2 "clay_enrichment_status") "sent_to_clay")).map
    (fun p => ⟨p.1, match p.2 "clay_sent_at" with | .num t => some t | _ => none⟩)

/-- Modelled from the spec: `find_rows_by_attio_ids` is called by main.py:63
but defined nowhere under src. Per the Enrichment Service Adapter contract
(`fetch_results`) it maps each requested record id to the Clay row bearing
it as `attio_record_id`, when one exists. -/
def find_rows_by_attio_ids (rows : List ClayRow) (ids : List String) :
    List (String × ClayRow) :=
  ids.filterMap (fun i =>
    (rows.find? (fun row => jeqStr (dget row "attio_record_id") i)).map
      (fun row => (i, row)))

/-- Lookup in the Clay-row map (`record_id in clay_rows` / indexing). -/
def lookupRow (m : List (String × ClayRow)) (rid : String) : Option ClayRow :=
  (m.find? (fun p => p.1 == rid)).map (fun p => p.2)

/-- The enriched-data dict built from a Clay row (main.py:75-80). -/
def record_enriched_data (clay_row : ClayRow) : List (String × JVal) :=
  [("job_title", pyOr (dget clay_row "enriched_job_title") (dget clay_row "job_title")),
   ("company", pyOr (dget clay_row "enriched_company") (dget clay_row "company")),
   ("linkedin_url", pyOr (dget clay_row "enriched_linkedin") (dget clay_row "linkedin_url")),
   ("phone", pyOr (dget clay_row "enriched_phone") (dget clay_row "phone"))]

/-- What the pending loop decides for one record. -/
inductive PendingAction where
  | enrich : List (String × JVal) → PendingAction
  | fail : String → PendingAction
  | skip : PendingAction

/-- The per-record branch of `process_pending_enrichments` (main.py:66-100):
a found result with some truthy field is applied as enriched; a found but
all-empty result fails with "No enrichment data returned from Clay"; no
result and `sent_at` before the timeout threshold fails with the timed-out
message (ENRICHMENT_TIMEOUT_HOURS = 2, config.py:17); otherwise the record
is left alone. -/
def resolve_pending_action (timeout_threshold : Int)
    (clayMap : List (String × ClayRow)) (r : PendingRec) : PendingAction :=
  match lookupRow clayMap r.record_id with
  | some clay_row =>
    let enriched_data := record_enriched_data clay_row
    if (enriched_data.map (fun p => p.2)).any JVal.truthy then .enrich enriched_data
    else .fail "No enrichment data returned from Clay"
  | none =>
    match r.sent_at with
    | some t => if t < timeout_threshold then .fail "Enrichment timed out after 2 hours" else .skip
    | none => .skip

/-- One iteration of the pending loop over (store, enriched_count,
failed_count). Store writes are modelled as succeeding. -/
def pendingStep (now : Int) (clayMap : List (String × ClayRow))
    (acc : Store × Nat × Nat) (r : PendingRec) : Store × Nat × Nat :=
  match resolve_pending_action (now - 2) clayMap r with
  | .enrich d => (update_store acc.1 r.record_id (mark_enriched_updates now d),
                  acc.2.1 + 1, acc.2.2)
  | .fail msg => (update_store acc.1 r.record_id (mark_failed_updates msg),
                  acc.2.1, acc.2.2 + 1)
  | .skip => acc

/-- Embeds `process_pending_enrichments` (main.py:39-102): query the pending
records, correlate them with the Clay table, and fold the per-record branch. -/
def process_pending_enrichments (now : Int) (clay_table : List ClayRow)
    (s : Store) : Store × Nat × Nat :=
  let pending := query_pending_records s
  let attio_ids := pending.filterMap
    (fun r => if r.record_id == "" then none else some r.record_id)
  let clayMap := find_rows_by_attio_ids clay_table attio_ids
  pending.foldl (pendingStep now clayMap) (s, 0, 0)

/-- Driver-level counterpart of `_needs_enrichment` over the flat Record the
driver consumes (main.py reads `record["record_id"]` and
`record.get("email")`, a flat shape). The status list is the one in
src/attio_client.py:72 (note: `company_linked` is absent from it). -/
def needs_enrichment_flat (f : Fields) : Bool :=
  (f "email").truthy &&
  !(jeqStr (f "clay_enrichment_status") "sent_to_clay" ||
    jeqStr (f "clay_enrichment_status") "enriched" ||
    jeqStr (f "clay_enrichment_status") "skipped" ||
    jeqStr (f "clay_enrichment_status") "failed") &&
  (!(f "job_title").truthy || !(f "company").truthy || !(f "linkedin").truthy)

/-- The spec predicate `needs_company_linking` at the driver level. -/
def needs_company_linking_flat (f : Fields) : Bool :=
  jeqStr (f "clay_enrichment_status") "enriched" &&
  (f "enriched_company_name").truthy &&
  !(f "company").truthy

/-- One iteration of the submit loop (main.py:123-150) over (store,
sent_count, error_count): skip when the record has no email, otherwise
submit to Clay (modelled as succeeding) and mark the record sent. -/
def sendStep (now : Int) (acc : Store × Nat × Nat) (r : String × Fields) :
    Store × Nat × Nat :=
  if !(r.2 "email").truthy then acc
  else (update_store acc.1 r.1 (mark_sent_updates now), acc.2.1 + 1, acc.2.2)

/-- Embeds `send_for_enrichment` (main.py:105-152): fold the submit loop over the
records classified as needing enrichment. The batch cap and the fixed
inter-submission delay are not modelled. -/
def send_for_enrichment (now : Int) (s : Store) : Store × Nat × Nat :=
  (s.filter (fun p => needs_enrichment_flat p.2)).foldl (sendStep now) (s, 0, 0)

/-- Process configuration (config.py / environment). -/
structure Config where
  attio_api_key : Option String
  clay_api_key : Option String
  clay_table_id : Option String
deriving Repr, DecidableEq

/-- Python truthiness of an optional environment string. -/
def optTruthy : Option String → Bool
  | none => false
  | some s => s != ""

/-- Embeds `check_config` (main.py:24-36): the list of missing required variables;
a nonempty list makes the process exit with status 1. -/
def check_config (c : Config) : List String :=
  (if !optTruthy c.attio_api_key then ["ATTIO_API_KEY"] else []) ++
  (if !optTruthy c.clay_api_key then ["CLAY_API_KEY"] else []) ++
  (if !optTruthy c.clay_table_id then ["CLAY_TABLE_ID"] else [])

/-- All three required configuration values are present. -/
def configPresent (c : Config) : Bool :=
  optTruthy c.attio_api_key && optTruthy c.clay_api_key && optTruthy c.clay_table_id

/-- The world a run observes: the record store, the Clay table, the time. -/
structure World where
  people : Store
  clay_table : List ClayRow
  now : Int

/-- Outcome of one invocation. -/
structure RunResult where
  exit_code : Nat
  people : Store
  phases_ran : Bool
  summary : Option String

/-- Embeds `main` (main.py:155-191): verify configuration (exiting 1 before any
phase when something is missing), run the pending phase then the submit
phase, and print the closing line chosen by `failed + errors > 0`. The
process does not exit nonzero after the phases, so the exit code is 0. -/
def mainRun (c : Config) (w : World) : RunResult :=
  if check_config c = [] then
    let p := process_pending_enrichments w.now w.clay_table w.people
    let q := send_for_enrichment w.now p.1
    ⟨0, q.1, true,
      some (if 0 < p.2.2 + q.2.2 then "Completed with some errors"
            else "Completed successfully")⟩
  else ⟨1, w.people, false, none⟩

/-- The `failed + errors` total of a run (main.py:183,188). -/
def runFailures (w : World) : Nat :=
  (process_pending_enrichments w.now w.clay_table w.people).2.2 +
  (send_for_enrichment w.now
    (process_pending_enrichments w.now w.clay_table w.people).1).2.2

/- ===== concrete inputs used by the claim theorems ===== -/

/-- A raw Attio record with an email, status `company_linked`, and every
key field missing. -/
def recCompanyLinked : List (String × JVal) :=
  [("values", .obj
    [("email_addresses", .arr [.obj [("email_address", .str "a@x.com")]]),
     ("clay_enrichment_status", .arr
       [.obj [("attribute_type", .str "text"), ("value", .str "company_linked")]])])]

/-- A raw Attio record as returned by the Attio query: the email lives at
`values.email_addresses`, the id under `id.record_id`; there is no
top-level `email` or `record_id` key. -/
def recRawEligible : List (String × JVal) :=
  [("id", .obj [("record_id", .str "r1")]),
   ("values", .obj
     [("email_addresses", .arr [.obj [("email_address", .str "a@x.com")]])])]

/-- A store with one record waiting on Clay (sent at time 5). -/
def storePending : Store :=
  [("r1", mkFields
    [("clay_enrichment_status", .str "sent_to_clay"),
     ("clay_sent_at", .num 5),
     ("email", .str "a@x.com")])]

/-- A Clay table whose only row answers record r1 with a company name only. -/
def clayCompanyOnly : List ClayRow :=
  [[("attio_record_id", .str "r1"), ("enriched_company", .str "Acme")]]

/-- A record that satisfies the company-linking predicate. -/
def fieldsLinkable : Fields :=
  mkFields
    [("clay_enrichment_status", .str "enriched"),
     ("enriched_company_name", .str "Acme"),
     ("email", .str "a@x.com")]

/-- A world holding one link-eligible record and an empty Clay table. -/
def worldLinkable : World := ⟨[("r3", fieldsLinkable)], [], 6⟩

/-- A world holding one already company-linked record without email. -/
def worldLinked : World :=
  ⟨[("r2", mkFields [("clay_enrichment_status", .str "company_linked")])], [], 0⟩

/-- A configuration with all three required values present. -/
def cfgOK : Config := ⟨some "ak", some "ck", some "tbl"⟩

/-- A configuration with the Attio key missing. -/
def cfgNoAttio : Config := ⟨none, some "ck", some "tbl"⟩

/- ===== C1 ===== -/

/-- C1: the claim says a record in status `company_linked` is never selected
for resubmission, but `_needs_enrichment` omits `company_linked` from its
excluded-status list (attio_client.py:72): on a record with an email,
status `company_linked` and missing key fields, the source classifier
returns True while the claimed classifier (excluded set including
`company_linked`) returns False. -/
theorem C1_needs_enrichment_selects_company_linked :
    needs_enrichment recCompanyLinked = .ok true ∧
    needs_enrichment_claim recCompanyLinked = .ok false :=
  ⟨rfl, rfl⟩

/- ===== C2 ===== -/

/-- C2: the claim says every non-empty result field is written on the
`enriched` transition. On a pending record whose Clay row carries only a
company name, the code transitions the record to `enriched` (the result has
a non-empty field, so the `any` gate passes) but writes no company data at
all: `mark_enriched` only ever writes `job_title`, `linkedin` and
`clay_row_id` (attio_client.py:178-193), so `company`,
`enriched_company_name` and `phone` stay absent. -/
theorem C2_mark_enriched_drops_company_fields :
    storeGet (process_pending_enrichments 6 clayCompanyOnly storePending).1 "r1"
      "clay_enrichment_status" = .str "enriched" ∧
    storeGet (process_pending_enrichments 6 clayCompanyOnly storePending).1 "r1"
      "company" = .null ∧
    storeGet (process_pending_enrichments 6 clayCompanyOnly storePending).1 "r1"
      "enriched_company_name" = .null ∧
    storeGet (process_pending_enrichments 6 clayCompanyOnly storePending).1 "r1"
      "phone" = .null ∧
    (process_pending_enrichments 6 clayCompanyOnly storePending).2 = (1, 0) :=
  ⟨rfl, rfl, rfl, rfl, rfl⟩

/- ===== C10 ===== -/

/-- C10: a raw record selected by `query_unenriched_records` does satisfy
`_needs_enrichment` (first half of the claim), but its email lives at
`values.email_addresses`, not at a top-level `email` key, and its id lives
under `id`, not `record_id`. `send_for_enrichment` (main.py:124-127) reads
`record["record_id"]` and `record.get("email")` on exactly these records,
so the `record.get("email")` lookup yields None — the no-email skip branch
is reached (after `record["record_id"]` would already have raised), contrary
to the claimed unreachability. -/
theorem C10_query_email_shape_mismatch :
    filter_needs_enrichment [recRawEligible] = .ok [recRawEligible] ∧
    needs_enrichment recRawEligible = .ok true ∧
    dictGet recRawEligible "email" = none ∧
    dictGet recRawEligible "record_id" = none :=
  ⟨rfl, rfl, rfl, rfl⟩

/- ===== C5 ===== -/

/-- Applying the same updates dict twice is the same as applying it once:
each field takes the last non-null update for it, or keeps its value. -/
theorem applyUpdates_twice (f : Fields) (us : List (String × JVal)) :
    applyUpdates (applyUpdates f us) us = applyUpdates f us := by
  funext k
  unfold applyUpdates
  cases h : us.reverse.find? (fun p => p.1 == k && !p.2.isNull) with
  | some p => simp [h]
  | none => simp [h]

/-- Patching the same record of the store twice with the same updates dict
equals patching it once. -/
theorem update_store_twice (s : Store) (rid : String) (us : List (String × JVal)) :
    update_store (update_store s rid us) rid us = update_store s rid us := by
  unfold update_store
  rw [List.map_map]
  congr 1
  funext p
  cases hc : p.1 == rid <;> simp [Function.comp, hc, applyUpdates_twice]

/-- C5: writing the `enriched` or `failed` transition twice with the same
inputs yields the same final observable record state as writing it once:
the `mark_enriched` and `mark_failed` updates dicts are functions of their
inputs, and `update_record` overwrites the named fields, so the write is
idempotent both on a field valuation and on the store. -/
theorem C5_transition_idempotent (f : Fields) (s : Store) (rid : String)
    (now : Int) (d : List (String × JVal)) (msg : String) :
    applyUpdates (applyUpdates f (mark_enriched_updates now d)) (mark_enriched_updates now d)
      = applyUpdates f (mark_enriched_updates now d) ∧
    applyUpdates (applyUpdates f (mark_failed_updates msg)) (mark_failed_updates msg)
      = applyUpdates f (mark_failed_updates msg) ∧
    update_store (update_store s rid (mark_enriched_updates now d)) rid (mark_enriched_updates now d)
      = update_store s rid (mark_enriched_updates now d) ∧
    update_store (update_store s rid (mark_failed_updates msg)) rid (mark_failed_updates msg)
      = update_store s rid (mark_failed_updates msg) :=
  ⟨applyUpdates_twice _ _, applyUpdates_twice _ _, update_store_twice _ _ _, update_store_twice _ _ _⟩

/- ===== C9 ===== -/

/-- C9: `mark_failed` writes status `failed` together with the error message
truncated to its first 500 characters; the truncation never exceeds 500
characters and is the identity on messages of at most 500 characters. -/
theorem C9_mark_failed_truncation (f : Fields) (msg : String) :
    applyUpdates f (mark_failed_updates msg) "clay_enrichment_status" = .str "failed" ∧
    applyUpdates f (mark_failed_updates msg) "enrichment_error" = .str (pyTake msg 500) ∧
    (pyTake msg 500).length ≤ 500 ∧
    (msg.length ≤ 500 → pyTake msg 500 = msg) := by
  refine ⟨rfl, rfl, ?_, ?_⟩
  · show (msg.data.take 500).length ≤ 500
    rw [List.length_take]
    exact min_le_left _ _
  · intro h
    show (⟨msg.data.take 500⟩ : String) = msg
    rw [List.take_of_length_le h]

/-- Witness for C9 at a concrete short message. -/
theorem C9_mark_failed_truncation_witness :
    applyUpdates (mkFields []) (mark_failed_updates "boom") "clay_enrichment_status"
      = .str "failed" ∧ pyTake "boom" 500 = "boom" :=
  ⟨(C9_mark_failed_truncation (mkFields []) "boom").1,
   (C9_mark_failed_truncation (mkFields []) "boom").2.2.2 (by decide)⟩

/- ===== C6 ===== -/

/-- C6: `_needs_company_linking` agrees with the spec predicate — true iff
the status is `enriched`, `enriched_company_name` extracts to a non-empty
value, and the company reference is absent; in particular a record that
already has a company reference is never selected. -/
theorem C6_needs_company_linking_spec_equiv (values : List (String × JVal)) :
    needs_company_linking values = needs_company_linking_spec values ∧
    (has_company values = true → needs_company_linking values = false) := by
  constructor
  · unfold needs_company_linking needs_company_linking_spec
    cases h1 : jeqStr (extract_text_value values "clay_enrichment_status") "enriched" <;>
    cases h2 : (extract_text_value values "enriched_company_name").truthy <;>
    cases h3 : has_company values <;>
    simp [h1, h2, h3]
  · intro h
    unfold needs_company_linking
    cases h1 : jeqStr (extract_text_value values "clay_enrichment_status") "enriched" <;>
    cases h2 : (extract_text_value values "enriched_company_name").truthy <;>
    simp [h1, h2, h]

/-- A values dict that is link-eligible except for an existing company
reference. -/
def valuesWithCompany : List (String × JVal) :=
  [("clay_enrichment_status", .arr
     [.obj [("attribute_type", .str "text"), ("value", .str "enriched")]]),
   ("enriched_company_name", .arr
     [.obj [("attribute_type", .str "text"), ("value", .str "Acme")]]),
   ("company", .arr [.obj [("target_record_id", .str "c1")]])]

/-- Witness for C6: on a record holding a company reference the classifier
matches the spec predicate and rejects the record. -/
theorem C6_needs_company_linking_spec_equiv_witness :
    needs_company_linking valuesWithCompany = needs_company_linking_spec valuesWithCompany ∧
    needs_company_linking valuesWithCompany = false :=
  ⟨(C6_needs_company_linking_spec_equiv valuesWithCompany).1,
   (C6_needs_company_linking_spec_equiv valuesWithCompany).2 rfl⟩

/- ===== C4 ===== -/

/-- C4: in the pending phase, a record with no Clay result and a present
`sent_at` is marked failed with the timed-out message when
`now - sent_at > timeout` (timeout = 2 hours), and is left completely
untouched when `now - sent_at < timeout` (main.py:96-100, where the code
compares `sent_at < now - timeout`). -/
theorem C4_timeout_behavior (now : Int) (clayMap : List (String × ClayRow))
    (s : Store) (e f : Nat) (rid : String) (t : Int)
    (hrow : lookupRow clayMap rid = none) :
    (now - t > 2 →
      pendingStep now clayMap (s, e, f) ⟨rid, some t⟩ =
        (update_store s rid (mark_failed_updates "Enrichment timed out after 2 hours"),
         e, f + 1)) ∧
    (now - t < 2 →
      pendingStep now clayMap (s, e, f) ⟨rid, some t⟩ = (s, e, f)) := by
  constructor
  · intro h
    have ht : t < now - 2 := by omega
    simp [pendingStep, resolve_pending_action, hrow, ht]
  · intro h
    have ht : ¬ t < now - 2 := by omega
    simp [pendingStep, resolve_pending_action, hrow, ht]

/-- Witness for C4 at now = 10: a record sent at 7 (3 hours ago) is failed
with the timed-out message; one sent at 9 (1 hour ago) is untouched. -/
theorem C4_timeout_behavior_witness :
    pendingStep 10 [] ([], 0, 0) ⟨"r1", some 7⟩ =
      (update_store [] "r1" (mark_failed_updates "Enrichment timed out after 2 hours"), 0, 1) ∧
    pendingStep 10 [] ([], 0, 0) ⟨"r1", some 9⟩ = ([], 0, 0) :=
  ⟨(C4_timeout_behavior 10 [] [] 0 0 "r1" 7 rfl).1 (by norm_num),
   (C4_timeout_behavior 10 [] [] 0 0 "r1" 9 rfl).2 (by norm_num)⟩

/- ===== C8 ===== -/

/-- C8 counterexample: `_extract_email` raises a TypeError when the
`email_addresses` value is a truthy non-iterable — the for-loop of
attio_client.py:89 iterates whatever the field holds. -/
theorem C8_counter_extract_email_raises :
    extract_email [("email_addresses", JVal.num 1)] = .error () :=
  rfl

/-- The shapes on which Python iteration raises: truthy numbers and `True`. -/
def badIterVal (v : JVal) : Bool :=
  v.truthy && (match v with | .num _ => true | .bool _ => true | _ => false)

/-- Scanning entries none of which is a dict finds no email. -/
theorem emailLoop_no_obj (entries : List JVal)
    (h : ∀ e ∈ entries, ∀ kvs, e ≠ JVal.obj kvs) : emailLoop entries = .null := by
  induction entries with
  | nil => rfl
  | cons e rest ih =>
    have he := h e (by simp)
    have hrest : ∀ x ∈ rest, ∀ kvs, x ≠ JVal.obj kvs :=
      fun x hx => h x (by simp [hx])
    cases e <;> simp [emailLoop, ih hrest]
    next kvs => exact absurd rfl (he kvs)

/-- C8 amended: `_extract_text_value` and `_has_company` never raise and
degrade to an absent result on the malformed shapes of the claim;
`_extract_email` raises exactly when `email_addresses` holds a truthy
non-iterable (number or boolean), and otherwise degrades to absent as
claimed (in particular on a list with no dict entry). -/
theorem C8_extraction_totality (values : List (String × JVal)) (field : String) :
    ((extract_email values = .error ()) ↔
      badIterVal ((dictGet values "email_addresses").getD (.arr [])) = true) ∧
    (dictGet values field = none → extract_text_value values field = .null) ∧
    (dictGet values field = some (.arr []) → extract_text_value values field = .null) ∧
    (dictGet values "company" = none → has_company values = false) ∧
    (dictGet values "company" = some (.arr []) → has_company values = false) ∧
    (∀ entries, dictGet values "email_addresses" = some (.arr entries) →
      (∀ e ∈ entries, ∀ kvs, e ≠ JVal.obj kvs) → extract_email values = .ok .null) := by
  refine ⟨?_, ?_, ?_, ?_, ?_, ?_⟩
  · cases hv : (dictGet values "email_addresses").getD (.arr []) with
    | null => simp [extract_email, hv, badIterVal, JVal.truthy]
    | bool b =>
      cases b <;> simp [extract_email, hv, badIterVal, JVal.truthy, pyIter]
    | num n =>
      by_cases hn : n = 0 <;>
        simp [extract_email, hv, badIterVal, JVal.truthy, pyIter, hn]
    | str s =>
      by_cases hs : s = "" <;>
        simp [extract_email, hv, badIterVal, JVal.truthy, pyIter, hs]
    | arr xs =>
      cases xs <;> simp [extract_email, hv, badIterVal, JVal.truthy, pyIter]
    | obj kvs =>
      cases kvs <;> simp [extract_email, hv, badIterVal, JVal.truthy, pyIter]
  · intro h; simp [extract_text_value, h, JVal.truthy]
  · intro h; simp [extract_text_value, h, JVal.truthy]
  · intro h; simp [has_company, h, JVal.truthy]
  · intro h; simp [has_company, h, JVal.truthy]
  · intro entries hget hno
    cases entries with
    | nil => simp [extract_email, hget, JVal.truthy]
    | cons e rest =>
      simp [extract_email, hget, JVal.truthy, pyIter, emailLoop_no_obj _ hno]

/-- A values dict whose email entries hold no dict. -/
def valuesOddEmail : List (String × JVal) :=
  [("email_addresses", .arr [.str "zzz"])]

/-- Witness for C8: a missing field extracts to absent, and an
`email_addresses` list without dict entries yields no email and no raise. -/
theorem C8_extraction_totality_witness :
    extract_text_value valuesOddEmail "foo" = .null ∧
    extract_email valuesOddEmail = .ok .null :=
  ⟨(C8_extraction_totality valuesOddEmail "foo").2.1 rfl,
   (C8_extraction_totality valuesOddEmail "foo").2.2.2.2.2 [.str "zzz"] rfl
     (by intro e he kvs; simp at he; simp [he])⟩

/- ===== C7 ===== -/

/-- The missing-variable list is empty exactly when all three required
configuration values are present. -/
theorem check_config_eq_nil_iff (c : Config) :
    check_config c = [] ↔ configPresent c = true := by
  cases h1 : optTruthy c.attio_api_key <;>
  cases h2 : optTruthy c.clay_api_key <;>
  cases h3 : optTruthy c.clay_table_id <;>
  simp [check_config, configPresent, h1, h2, h3]

/-- C7: with a required configuration value absent, the run exits 1 before
any phase (no store write, no summary); with configuration present, the run
exits 0 and its summary line is the with-errors line exactly when
`failed + errors` is positive, the success line exactly when it is zero. -/
theorem C7_config_gate (c : Config) (w : World) :
    (configPresent c = false →
      (mainRun c w).exit_code = 1 ∧ (mainRun c w).phases_ran = false ∧
      (mainRun c w).people = w.people ∧ (mainRun c w).summary = none) ∧
    (configPresent c = true →
      (mainRun c w).exit_code = 0 ∧
      ((mainRun c w).summary = some "Completed with some errors" ↔ 0 < runFailures w) ∧
      ((mainRun c w).summary = some "Completed successfully" ↔ runFailures w = 0)) := by
  constructor
  · intro h
    have hc : ¬ check_config c = [] := by
      rw [check_config_eq_nil_iff, h]; simp
    simp [mainRun, hc]
  · intro h
    have hc : check_config c = [] := (check_config_eq_nil_iff c).mpr h
    have hsum : (mainRun c w).summary =
        some (if 0 < runFailures w then "Completed with some errors"
              else "Completed successfully") := by
      simp [mainRun, hc, runFailures]
    refine ⟨by simp [mainRun, hc], ?_, ?_⟩ <;> rw [hsum] <;>
      by_cases hf : 0 < runFailures w <;> simp [hf] <;> omega
  
/-- Witness for C7: with the Attio key missing the run exits 1 untouched;
with configuration present over an empty world the run exits 0 and reports
success. -/
theorem C7_config_gate_witness :
    ((mainRun cfgNoAttio ⟨[], [], 0⟩).exit_code = 1 ∧
     (mainRun cfgNoAttio ⟨[], [], 0⟩).phases_ran = false ∧
     (mainRun cfgNoAttio ⟨[], [], 0⟩).people = (⟨[], [], 0⟩ : World).people ∧
     (mainRun cfgNoAttio ⟨[], [], 0⟩).summary = none) ∧
    (mainRun cfgOK ⟨[], [], 0⟩).exit_code = 0 ∧
    (mainRun cfgOK ⟨[], [], 0⟩).summary = some "Completed successfully" :=
  ⟨(C7_config_gate cfgNoAttio ⟨[], [], 0⟩).1 rfl,
   ((C7_config_gate cfgOK ⟨[], [], 0⟩).2 rfl).1,
   ((C7_config_gate cfgOK ⟨[], [], 0⟩).2 rfl).2.2.mpr rfl⟩

/- ===== C3 ===== -/

/-- C3 counterexample: a world holding a record that satisfies the company
linking predicate (status `enriched`, company name present, no company
reference). The claim says every pass runs the company-linking phase on it
and transitions it to `company_linked`; the run as coded (main.py:155-191
calls only `process_pending_enrichments` and `send_for_enrichment`) leaves
its status at `enriched`. -/
theorem C3_counter_no_company_link_phase :
    needs_company_linking_flat (storeGet worldLinkable.people "r3") = true ∧
    (mainRun cfgOK worldLinkable).exit_code = 0 ∧
    (mainRun cfgOK worldLinkable).phases_ran = true ∧
    storeGet (mainRun cfgOK worldLinkable).people "r3" "clay_enrichment_status"
      = .str "enriched" :=
  ⟨rfl, rfl, rfl, rfl⟩

/-- Reading a record after a patch of the store: the fields are either the
old ones (another record was patched, or the id is absent) or the old ones
with the updates applied. -/
theorem storeGet_update_or (s : Store) (rid rid2 : String)
    (us : List (String × JVal)) :
    storeGet (update_store s rid2 us) rid = storeGet s rid ∨
    storeGet (update_store s rid2 us) rid = applyUpdates (storeGet s rid) us := by
  induction s with
  | nil => exact Or.inl rfl
  | cons p rest ih =>
    cases hq : p.1 == rid2 <;> cases hp : p.1 == rid <;>
      simp only [update_store, storeGet, List.map_cons, List.find?_cons, hq, hp,
        Bool.false_eq_true, if_false, if_true] at ih ⊢ <;>
      first | exact ih | exact Or.inl trivial | exact Or.inr trivial

/-- The `mark_enriched` updates always leave the status at `enriched`. -/
theorem applyStatus_enriched (f : Fields) (now : Int) (d : List (String × JVal)) :
    applyUpdates f (mark_enriched_updates now d) "clay_enrichment_status"
      = .str "enriched" := by
  unfold mark_enriched_updates
  split <;> split <;> split <;> rfl

/-- The `mark_failed` updates always leave the status at `failed`. -/
theorem applyStatus_failed (f : Fields) (msg : String) :
    applyUpdates f (mark_failed_updates msg) "clay_enrichment_status"
      = .str "failed" := rfl

/-- The `mark_sent_to_clay` updates always leave the status at
`sent_to_clay`. -/
theorem applyStatus_sent (f : Fields) (now : Int) :
    applyUpdates f (mark_sent_updates now) "clay_enrichment_status"
      = .str "sent_to_clay" := rfl

/-- One pending-phase iteration never sets a status to `company_linked`. -/
theorem pendingStep_no_company_linked (now : Int)
    (clayMap : List (String × ClayRow)) (acc : Store × Nat × Nat)
    (r : PendingRec) (rid : String)
    (h : storeGet (pendingStep now clayMap acc r).1 rid "clay_enrichment_status"
           = .str "company_linked") :
    storeGet acc.1 rid "clay_enrichment_status" = .str "company_linked" := by
  unfold pendingStep at h
  cases hact : resolve_pending_action (now - 2) clayMap r with
  | enrich d =>
    rw [hact] at h
    rcases storeGet_update_or acc.1 rid r.record_id (mark_enriched_updates now d)
      with heq | heq
    · rw [heq] at h; exact h
    · rw [heq, applyStatus_enriched] at h
      exact absurd h (by simp)
  | fail msg =>
    rw [hact] at h
    rcases storeGet_update_or acc.1 rid r.record_id (mark_failed_updates msg)
      with heq | heq
    · rw [heq] at h; exact h
    · rw [heq, applyStatus_failed] at h
      exact absurd h (by simp)
  | skip =>
    rw [hact] at h
    exact h

/-- The whole pending loop never sets a status to `company_linked`. -/
theorem pendingFold_no_company_linked (now : Int)
    (clayMap : List (String × ClayRow)) (l : List PendingRec) :
    ∀ (acc : Store × Nat × Nat) (rid : String),
      storeGet (l.foldl (pendingStep now clayMap) acc).1 rid "clay_enrichment_status"
        = .str "company_linked" →
      storeGet acc.1 rid "clay_enrichment_status" = .str "company_linked" := by
  induction l with
  | nil => intro acc rid h; exact h
  | cons r rest ih =>
    intro acc rid h
    exact pendingStep_no_company_linked now clayMap acc r rid (ih _ rid h)

/-- One submit-phase iteration never sets a status to `company_linked`. -/
theorem sendStep_no_company_linked (now : Int) (acc : Store × Nat × Nat)
    (r : String × Fields) (rid : String)
    (h : storeGet (sendStep now acc r).1 rid "clay_enrichment_status"
           = .str "company_linked") :
    storeGet acc.1 rid "clay_enrichment_status" = .str "company_linked" := by
  unfold sendStep at h
  by_cases he : ((r.2 "email").truthy : Bool) = true
  · simp only [he, Bool.not_true, Bool.false_eq_true, if_false] at h
    rcases storeGet_update_or acc.1 rid r.1 (mark_sent_updates now) with heq | heq
    · rw [heq] at h; exact h
    · rw [heq, applyStatus_sent] at h
      exact absurd h (by simp)
  · have he2 : (r.2 "email").truthy = false := by
      cases hx : (r.2 "email").truthy
      · rfl
      · exact absurd hx he
    simp only [he2, Bool.not_false, if_true] at h
    exact h

/-- The whole submit loop never sets a status to `company_linked`. -/
theorem sendFold_no_company_linked (now : Int) (l : List (String × Fields)) :
    ∀ (acc : Store × Nat × Nat) (rid : String),
      storeGet (l.foldl (sendStep now) acc).1 rid "clay_enrichment_status"
        = .str "company_linked" →
      storeGet acc.1 rid "clay_enrichment_status" = .str "company_linked" := by
  induction l with
  | nil => intro acc rid h; exact h
  | cons r rest ih =>
    intro acc rid h
    exact sendStep_no_company_linked now acc r rid (ih _ rid h)

/-- C3 amended: a run with valid configuration executes exactly two phases,
resolve-pending then submit-new (no company-linking phase); consequently a
run never moves any record into status `company_linked` — a record can only
end a pass in that status by having started it there. -/
theorem C3_two_phase_run (c : Config) (w : World) (rid : String)
    (hc : configPresent c = true) :
    (mainRun c w).people =
      (send_for_enrichment w.now
        (process_pending_enrichments w.now w.clay_table w.people).1).1 ∧
    (storeGet (mainRun c w).people rid "clay_enrichment_status"
        = .str "company_linked" →
      storeGet w.people rid "clay_enrichment_status" = .str "company_linked") := by
  have hcc : check_config c = [] := (check_config_eq_nil_iff c).mpr hc
  have hpeople : (mainRun c w).people =
      (send_for_enrichment w.now
        (process_pending_enrichments w.now w.clay_table w.people).1).1 := by
    simp [mainRun, hcc]
  refine ⟨hpeople, ?_⟩
  intro h
  rw [hpeople] at h
  unfold send_for_enrichment at h
  have h2 := sendFold_no_company_linked w.now _ _ rid h
  unfold process_pending_enrichments at h2
  exact pendingFold_no_company_linked w.now _ _ _ rid h2

/-- Witness for C3 amended: a record already in `company_linked` (and
untouched by both phases) ends the pass there, and the precondition of the
theorem is dischargeable. -/
theorem C3_two_phase_run_witness :
    (mainRun cfgOK worldLinked).people =
      (send_for_enrichment worldLinked.now
        (process_pending_enrichments worldLinked.now worldLinked.clay_table
          worldLinked.people).1).1 ∧
    storeGet worldLinked.people "r2" "clay_enrichment_status"
      = .str "company_linked" :=
  ⟨(C3_two_phase_run cfgOK worldLinked "r2" rfl).1,
   (C3_two_phase_run cfgOK worldLinked "r2" rfl).2 rfl⟩
